import Mathlib

/-!
Shallow embedding of the Tetris game engine in `script.js`
(AzhaanGlitch/Tetris-Game). The presentation glue (canvas, theme, mobile
navigation) is out of scope; the embedding covers the game-state core:
the grid, the falling piece, collision, movement/rotation, line clearing
and scoring. JavaScript numbers that stay integral are modelled as `Nat`
(cell fill-codes, score, counts) and `Int` (piece offsets, which can go
negative transiently). Mutation of the global state is modelled by
explicit state passing on a `GameState` structure; `moveDown`, which
dereferences `fallingPieceObj` without a null guard in the source,
returns `Option GameState`, with `none` standing for the TypeError the
source throws when the piece is absent.
-/

namespace Tetris

/-- Board height, `const ROWS = 20` in the source. -/
def ROWS : Nat := 20

/-- Board width, `const COLS = 10` in the source. -/
def COLS : Nat := 10

/-- The seven shape templates, the `SHAPES` constant of the source. -/
def SHAPES : List (List (List Nat)) := [
  [[0, 1, 0, 0],
   [0, 1, 0, 0],
   [0, 1, 0, 0],
   [0, 1, 0, 0]],
  [[0, 1, 0],
   [0, 1, 0],
   [1, 1, 0]],
  [[0, 1, 0],
   [0, 1, 0],
   [0, 1, 1]],
  [[1, 1, 0],
   [0, 1, 1],
   [0, 0, 0]],
  [[0, 1, 1],
   [1, 1, 0],
   [0, 0, 0]],
  [[1, 1, 1],
   [0, 1, 0],
   [0, 0, 0]],
  [[1, 1],
   [1, 1]]]

/-- The active falling piece: the `fallingPieceObj` object
`\x7b piece, colorIndex, x, y \x7d` of the source. -/
structure FallingPiece where
  piece : List (List Nat)
  colorIndex : Nat
  x : Int
  y : Int
  deriving Repr, DecidableEq

/-- The global mutable state of the source, gathered in one structure:
`grid`, `fallingPieceObj` (`none` = JavaScript `null`), `score`,
`isGameRunning`, and whether the `setInterval` timer is active
(`intervalActive` models `gameInterval` being a live timer;
`clearInterval` sets it to false). -/
structure GameState where
  grid : List (List Nat)
  fallingPieceObj : Option FallingPiece
  score : Nat
  isGameRunning : Bool
  intervalActive : Bool
  deriving Repr, DecidableEq

/-- Reading a cell `grid[q][p]`; out-of-range reads give 0 (the source
only reads in range wherever this definition is used under bounds
hypotheses). -/
def getCell (g : List (List Nat)) (q p : Nat) : Nat :=
  (g.getD q []).getD p 0

/-- The `generateGrid()` function: a 20-row, 10-column grid of zeros,
built by push loops in the source; its value is exactly this. -/
def generateGrid : List (List Nat) :=
  List.replicate ROWS (List.replicate COLS 0)

/-- The `randomPieceObject()` function with the random draw
`Math.floor(Math.random() * 7)` passed in as the argument `ran`:
`piece = SHAPES[ran]`, `colorIndex = ran + 1`, `x = 4`, `y = 0`. -/
def randomPieceObject (ran : Nat) : FallingPiece :=
  { piece := SHAPES.getD ran [], colorIndex := ran + 1, x := 4, y := 0 }

/-- The `collision(x, y, piece)` predicate of the source: scan every
cell of the shape matrix; a cell with value 1 at absolute position
`(x + j, y + i)` collides if that position is outside
`[0,COLS) × [0,ROWS)` or the grid cell there is `> 0`. Cells whose
matrix value is not 1 are skipped. The early `return true` of the
source is the `any` here; the function reads and never writes. -/
def collision (g : List (List Nat)) (piece : List (List Nat)) (x y : Int) : Bool :=
  (List.range piece.length).any (fun i =>
    (List.range ((piece.getD i []).length)).any (fun j =>
      (piece.getD i []).getD j 0 == 1 &&
        (let p : Int := x + j
         let q : Int := y + i
         if 0 ≤ p ∧ p < (COLS : Int) ∧ 0 ≤ q ∧ q < (ROWS : Int) then
           getCell g q.toNat p.toNat > 0
         else
           true)))

/-- The `allFilled` inner loop of `checkGrid`: row `r` is complete when
no cell `r[j]`, for `j < ncols`, equals 0. The source takes `ncols`
from `grid[0].length` at each iteration. -/
def rowAllFilled (ncols : Nat) (r : List Nat) : Bool :=
  (List.range ncols).all (fun j => !(r.getD j 0 == 0))

/-- The fresh empty row `[0,0,0,0,0,0,0,0,0,0]` unshifted by `checkGrid`. -/
def emptyRow : List Nat := [0, 0, 0, 0, 0, 0, 0, 0, 0, 0]

/-- The `for (let i = 0; ...)` loop of `checkGrid`: at index `i`, if row
`i` is complete, increment the count, `splice(i, 1)` it out
(`take i ++ drop (i+1)`) and `unshift` an empty row; then continue with
`i + 1` on the mutated grid. The loop guard `i < grid.length` is
re-evaluated on the mutated grid, exactly as in the source; `fuel`
bounds the iteration count and is set to the initial length, which the
splice-then-unshift combination preserves, so the loop runs to
completion exactly as in the source. -/
def checkGridLoop : Nat → Nat → List (List Nat) → Nat → List (List Nat) × Nat
  | 0, _, g, count => (g, count)
  | fuel + 1, i, g, count =>
    if i < g.length then
      if rowAllFilled (g.getD 0 []).length (g.getD i []) then
        checkGridLoop fuel (i + 1) (emptyRow :: (g.take i ++ g.drop (i + 1))) (count + 1)
      else
        checkGridLoop fuel (i + 1) g count
    else (g, count)

/-- The grid-and-count part of one `checkGrid()` pass. -/
def checkGridCount (g : List (List Nat)) : List (List Nat) × Nat :=
  checkGridLoop g.length 0 g 0

/-- The score-increment if-chain at the end of `checkGrid`:
`count == 1 → 10`, `count == 2 → 30`, `count == 3 → 50`,
`count > 3 → 100`, else nothing. -/
def scoreInc (count : Nat) : Nat :=
  if count == 1 then 10
  else if count == 2 then 30
  else if count == 3 then 50
  else if count > 3 then 100
  else 0

/-- The whole `checkGrid()` function: clear complete rows, then add the
score increment for the count of this pass. -/
def checkGrid (s : GameState) : GameState :=
  let r := checkGridCount s.grid
  { s with grid := r.1, score := s.score + scoreInc r.2 }

/-- Writing one cell `grid[q][p] = v` at the lock step. The source
performs this only at in-range positions in any reachable lock (the
piece position was collision-checked); `Int.toNat` plus the no-op
behaviour of `List.set` out of range model exactly the in-range
writes. -/
def writeCell (g : List (List Nat)) (q p : Int) (v : Nat) : List (List Nat) :=
  g.set q.toNat ((g.getD q.toNat []).set p.toNat v)

/-- The inner `for (j ...)` merge loop of `moveDown`: walk one shape
row, writing the fill-code at each cell equal to 1; `p` is the absolute
column `x + j` of the head cell. -/
def writeRow (v : Nat) (q : Int) : List Nat → Int → List (List Nat) → List (List Nat)
  | [], _, g => g
  | c :: cs, p, g =>
      writeRow v q cs (p + 1) (if c == 1 then writeCell g q p v else g)

/-- The outer `for (i ...)` merge loop of `moveDown`: walk the shape
rows, `q` being the absolute row `y + i` of the head row. -/
def writePiece (v : Nat) : List (List Nat) → Int → Int → List (List Nat) → List (List Nat)
  | [], _, _, g => g
  | r :: rs, x, q, g => writePiece v rs x (q + 1) (writeRow v q r x g)

/-- The merge-into-grid step of `moveDown`: every cell of
`fallingPieceObj.piece` equal to 1 is written into the grid as the
piece's `colorIndex`. -/
def lockPiece (g : List (List Nat)) (fp : FallingPiece) : List (List Nat) :=
  writePiece fp.colorIndex fp.piece fp.x fp.y g

/-- The `moveDown()` function. The source dereferences
`fallingPieceObj` without a guard, so an absent piece is a fault,
modelled as `none`. Otherwise: if one row down does not collide,
translate down; else merge the piece into the grid, trigger game-over
(cancel the timer, clear the running flag) exactly when `y == 0`, and
clear the active piece. -/
def moveDown (s : GameState) : Option GameState :=
  match s.fallingPieceObj with
  | none => none
  | some fp =>
    if !(collision s.grid fp.piece fp.x (fp.y + 1)) then
      some { s with fallingPieceObj := some { fp with y := fp.y + 1 } }
    else
      let g := lockPiece s.grid fp
      if fp.y == 0 then
        some { s with grid := g, fallingPieceObj := none,
                      isGameRunning := false, intervalActive := false }
      else
        some { s with grid := g, fallingPieceObj := none }

/-- The `moveLeft()` function: guarded on the piece being present;
translate one column left when the target does not collide. -/
def moveLeft (s : GameState) : GameState :=
  match s.fallingPieceObj with
  | none => s
  | some fp =>
    if !(collision s.grid fp.piece (fp.x - 1) fp.y) then
      { s with fallingPieceObj := some { fp with x := fp.x - 1 } }
    else s

/-- The `moveRight()` function: mirror of `moveLeft`. -/
def moveRight (s : GameState) : GameState :=
  match s.fallingPieceObj with
  | none => s
  | some fp =>
    if !(collision s.grid fp.piece (fp.x + 1) fp.y) then
      { s with fallingPieceObj := some { fp with x := fp.x + 1 } }
    else s

/-- The rotation transform of `rotate()`: build `rotatedPiece` with
`rotatedPiece[i][j] = piece[j][i]` (for `j < piece[i].length`), then
reverse every row. -/
def rotateShape (m : List (List Nat)) : List (List Nat) :=
  (List.range m.length).map (fun i =>
    ((List.range ((m.getD i []).length)).map
      (fun j => (m.getD j []).getD i 0)).reverse)

/-- The `rotate()` function: no-op when no piece is active; compute the
rotated matrix; keep it only when it does not collide at the current
offsets. -/
def rotate (s : GameState) : GameState :=
  match s.fallingPieceObj with
  | none => s
  | some fp =>
    let rotatedPiece := rotateShape fp.piece
    if !(collision s.grid rotatedPiece fp.x fp.y) then
      { s with fallingPieceObj := some { fp with piece := rotatedPiece } }
    else s

/-- The `keydown` handler: a no-op unless the game is running, then
dispatch on the arrow keys. `ArrowDown` reaches the unguarded
`moveDown`. -/
def onKeyDown (key : String) (s : GameState) : Option GameState :=
  if !s.isGameRunning then some s
  else if key == "ArrowDown" then moveDown s
  else if key == "ArrowLeft" then some (moveLeft s)
  else if key == "ArrowRight" then some (moveRight s)
  else if key == "ArrowUp" then some (rotate s)
  else some s

/-- Iterated `moveDown`, faulting (`none`) if any step faults. -/
def stepN : Nat → GameState → Option GameState
  | 0, s => some s
  | n + 1, s => (moveDown s).bind (stepN n)

/-- Dimension part of the board invariant: 20 rows of 10 columns. -/
def gridDims (g : List (List Nat)) : Prop :=
  g.length = ROWS ∧ ∀ r ∈ g, r.length = COLS

/-- The full board invariant of the data model: 20 rows × 10 columns
and every cell value in `[0, 7]`. -/
def gridWF (g : List (List Nat)) : Prop :=
  g.length = ROWS ∧ ∀ r ∈ g, r.length = COLS ∧ ∀ c ∈ r, c ≤ 7

instance (g : List (List Nat)) : Decidable (gridDims g) := by
  unfold gridDims; infer_instance

instance (g : List (List Nat)) : Decidable (gridWF g) := by
  unfold gridWF; infer_instance

/-- Squareness of a shape matrix: as many columns in every row as there
are rows. All seven templates satisfy it. -/
def isSquare (m : List (List Nat)) : Prop :=
  ∀ r ∈ m, r.length = m.length

instance (m : List (List Nat)) : Decidable (isSquare m) := by
  unfold isSquare; infer_instance

/-- Decidable check that every filled cell of a shape placed at
`(x, y)` lies inside `[0,COLS) × [0,ROWS)`. -/
def cellsInBounds (piece : List (List Nat)) (x y : Int) : Bool :=
  (List.range piece.length).all (fun i =>
    (List.range ((piece.getD i []).length)).all (fun j =>
      !((piece.getD i []).getD j 0 == 1) ||
        decide (0 ≤ x + (j : Int) ∧ x + (j : Int) < (COLS : Int) ∧
                0 ≤ y + (i : Int) ∧ y + (i : Int) < (ROWS : Int))))

/-- A fully filled row, for concrete line-clear scenarios. -/
def fullRow : List Nat := List.replicate COLS 1

/-- A board whose two bottom rows (indices 18 and 19) are complete. -/
def adjacentFullGrid : List (List Nat) :=
  List.replicate 18 emptyRow ++ [fullRow, fullRow]

/-- The O piece as spawned: `randomPieceObject` at draw 6. -/
def pieceO : FallingPiece := randomPieceObject 6

/-- The I piece as spawned: `randomPieceObject` at draw 0. -/
def pieceI : FallingPiece := randomPieceObject 0

/-- Fresh running state with the O piece just spawned at `(4, 0)`. -/
def oInit : GameState :=
  { grid := generateGrid, fallingPieceObj := some pieceO,
    score := 0, isGameRunning := true, intervalActive := true }

/-- Running state with no active piece on an empty board. -/
def sNoPiece : GameState :=
  { grid := generateGrid, fallingPieceObj := none,
    score := 0, isGameRunning := true, intervalActive := true }

/-- Running state with the I piece moved to `x = 7`, where its rotation
(a horizontal bar on matrix row 1, columns 7 to 10) collides with the
right wall. -/
def sIRight : GameState :=
  { grid := generateGrid, fallingPieceObj := some { pieceI with x := 7 },
    score := 0, isGameRunning := true, intervalActive := true }

/-- Running state with the O piece at the left wall (`x = 0`). -/
def sOLeft : GameState :=
  { grid := generateGrid, fallingPieceObj := some { pieceO with x := 0 },
    score := 0, isGameRunning := true, intervalActive := true }

/-- Running state with the O piece resting on the floor (`y = 18`,
filled cells on board rows 18 and 19). -/
def sOBottom : GameState :=
  { grid := generateGrid, fallingPieceObj := some { pieceO with y := 18 },
    score := 0, isGameRunning := true, intervalActive := true }

/-- The state produced by locking the O piece resting at `y = 18`:
its four cells merged at rows 18 and 19, columns 4 and 5, the active
piece absent, the game still running (no game-over since `y ≠ 0`). -/
def sAfterLock : GameState :=
  { grid := lockPiece generateGrid { pieceO with y := 18 },
    fallingPieceObj := none,
    score := 0, isGameRunning := true, intervalActive := true }

/-!
Helper lemmas.
-/

theorem ite_true_iff {P : Prop} [Decidable P] {b : Bool} :
    (if P then b else true) = true ↔ (P → b = true) := by
  by_cases h : P <;> simp [h]

/-- Characterisation of `collision` as an existential over filled cells
of the shape matrix. -/
theorem collision_iff (g piece : List (List Nat)) (x y : Int) :
    collision g piece x y = true ↔
      ∃ i j, i < piece.length ∧ j < (piece.getD i []).length ∧
        (piece.getD i []).getD j 0 = 1 ∧
        (¬ (0 ≤ x + (j : Int) ∧ x + (j : Int) < (COLS : Int) ∧
            0 ≤ y + (i : Int) ∧ y + (i : Int) < (ROWS : Int)) ∨
          0 < getCell g (y + (i : Int)).toNat (x + (j : Int)).toNat) := by
  unfold collision
  simp only [List.any_eq_true, List.mem_range, Bool.and_eq_true, beq_iff_eq,
    ite_true_iff, decide_eq_true_eq, imp_iff_not_or]
  constructor
  · rintro ⟨i, hi, j, hj, hv, hp⟩
    exact ⟨i, j, hi, hj, hv, hp⟩
  · rintro ⟨i, j, hi, hj, hv, hp⟩
    exact ⟨i, hi, j, hj, hv, hp⟩

theorem cellsInBounds_iff (piece : List (List Nat)) (x y : Int) :
    cellsInBounds piece x y = true ↔
      ∀ i j, i < piece.length → j < (piece.getD i []).length →
        (piece.getD i []).getD j 0 = 1 →
        0 ≤ x + (j : Int) ∧ x + (j : Int) < (COLS : Int) ∧
        0 ≤ y + (i : Int) ∧ y + (i : Int) < (ROWS : Int) := by
  unfold cellsInBounds
  simp only [List.all_eq_true, List.mem_range, Bool.or_eq_true, Bool.not_eq_true',
    beq_eq_false_iff_ne, ne_eq, decide_eq_true_eq]
  constructor
  · intro h i j hi hj hv
    rcases h i hi j hj with h0 | h0
    · exact absurd hv h0
    · exact h0
  · intro h i hi j hj
    by_cases hv : (piece.getD i []).getD j 0 = 1
    · exact Or.inr (h i j hi hj hv)
    · exact Or.inl hv

theorem rotateShape_length (m : List (List Nat)) :
    (rotateShape m).length = m.length := by
  simp [rotateShape]

theorem rotateShape_row (m : List (List Nat)) {i : Nat} (hi : i < m.length) :
    (rotateShape m).getD i [] =
      ((List.range ((m.getD i []).length)).map
        (fun j => (m.getD j []).getD i 0)).reverse := by
  have h1 : (rotateShape m)[i]? =
      some (((List.range ((m.getD i []).length)).map
        (fun j => (m.getD j []).getD i 0)).reverse) := by
    unfold rotateShape
    simp [List.getElem?_range hi]
  simp [List.getD_eq_getElem?_getD, h1]

theorem square_row_length {m : List (List Nat)} (h : isSquare m) {i : Nat}
    (hi : i < m.length) :
    (m.getD i []).length = m.length := by
  rw [List.getD_eq_getElem _ _ hi]
  exact h _ (List.getElem_mem hi)

theorem rotateShape_isSquare {m : List (List Nat)} (h : isSquare m) :
    isSquare (rotateShape m) := by
  intro r hr
  rw [rotateShape_length]
  unfold rotateShape at hr
  rw [List.mem_map] at hr
  obtain ⟨i, hi, rfl⟩ := hr
  rw [List.mem_range] at hi
  simp only [List.length_reverse, List.length_map, List.length_range]
  exact square_row_length h hi

theorem rotateShape_entry {m : List (List Nat)} (h : isSquare m) {i j : Nat}
    (hi : i < m.length) (hj : j < m.length) :
    ((rotateShape m).getD i []).getD j 0 =
      (m.getD (m.length - 1 - j) []).getD i 0 := by
  rw [rotateShape_row m hi, square_row_length h hi]
  have hrev : (((List.range m.length).map
      (fun k => (m.getD k []).getD i 0)).reverse)[j]? =
        some ((m.getD (m.length - 1 - j) []).getD i 0) := by
    rw [List.getElem?_reverse (by simpa using hj)]
    simp only [List.length_map, List.length_range]
    simp [List.getElem?_range (show m.length - 1 - j < m.length by omega)]
  rw [List.getD_eq_getElem?_getD, hrev]
  rfl

theorem rotateShape_entry2 {m : List (List Nat)} (h : isSquare m) {i j : Nat}
    (hi : i < m.length) (hj : j < m.length) :
    ((rotateShape (rotateShape m)).getD i []).getD j 0 =
      (m.getD (m.length - 1 - i) []).getD (m.length - 1 - j) 0 := by
  have h1 : isSquare (rotateShape m) := rotateShape_isSquare h
  have hlen : (rotateShape m).length = m.length := rotateShape_length m
  rw [rotateShape_entry h1 (by omega) (by omega), hlen]
  rw [rotateShape_entry h (by omega) (by omega)]

theorem grid_ext {a b : List (List Nat)} (hl : a.length = b.length)
    (hrow : ∀ i, i < a.length → (a.getD i []).length = (b.getD i []).length)
    (hent : ∀ i j, i < a.length → j < (a.getD i []).length →
      (a.getD i []).getD j 0 = (b.getD i []).getD j 0) :
    a = b := by
  apply List.ext_getElem hl
  intro i h1 h2
  apply List.ext_getElem
  · have hr := hrow i h1
    rwa [List.getD_eq_getElem _ _ h1, List.getD_eq_getElem _ _ h2] at hr
  · intro j hj1 hj2
    have he := hent i j h1 (by rwa [List.getD_eq_getElem _ _ h1])
    rwa [List.getD_eq_getElem _ _ h1, List.getD_eq_getElem _ _ hj1,
      List.getD_eq_getElem _ _ h2, List.getD_eq_getElem _ _ hj2] at he

theorem checkGridLoop_count (fuel : Nat) :
    ∀ (i : Nat) (g : List (List Nat)) (count : Nat),
      0 < g.length → (∀ r ∈ g, r.length = COLS) → g.length ≤ i + fuel →
      (checkGridLoop fuel i g count).2 =
        count + (g.drop i).countP (fun r => rowAllFilled COLS r) := by
  induction fuel with
  | zero =>
    intro i g count _ _ hle
    rw [List.drop_eq_nil_of_le (by omega)]
    simp [checkGridLoop]
  | succ fuel ih =>
    intro i g count hpos hrows hle
    rw [checkGridLoop]
    by_cases hlt : i < g.length
    · rw [if_pos hlt]
      have hget0 : g.getD 0 [] = g[0] := List.getD_eq_getElem g [] hpos
      have hnc : (g.getD 0 []).length = COLS := by
        rw [hget0]; exact hrows _ (List.getElem_mem hpos)
      have hgeti : g.getD i [] = g[i] := List.getD_eq_getElem g [] hlt
      have hdropi : g.drop i = g[i] :: g.drop (i + 1) :=
        List.drop_eq_getElem_cons hlt
      rw [hnc]
      by_cases hrow : rowAllFilled COLS (g.getD i []) = true
      · rw [if_pos hrow]
        have htake : (g.take i).length = i := by
          rw [List.length_take]; omega
        have hsplice :
            (emptyRow :: (g.take i ++ g.drop (i + 1))).length = g.length := by
          simp [List.length_take, List.length_drop]
          omega
        have hdrop :
            (emptyRow :: (g.take i ++ g.drop (i + 1))).drop (i + 1) =
              g.drop (i + 1) := by
          rw [List.drop_succ_cons, List.drop_left' htake]
        have hrows2 : ∀ r ∈ emptyRow :: (g.take i ++ g.drop (i + 1)),
            r.length = COLS := by
          intro r hr
          rcases List.mem_cons.1 hr with rfl | hr
          · rfl
          · rcases List.mem_append.1 hr with hr | hr
            · exact hrows _ (List.mem_of_mem_take hr)
            · exact hrows _ (List.mem_of_mem_drop hr)
        rw [ih (i + 1) _ (count + 1) (by omega) hrows2 (by omega), hdrop,
          hdropi, List.countP_cons_of_pos _ _ (by rwa [hgeti] at hrow)]
        omega
      · rw [if_neg hrow]
        rw [ih (i + 1) g count hpos hrows (by omega), hdropi,
          List.countP_cons_of_neg _ _ (by rwa [hgeti] at hrow)]
    · rw [if_neg hlt]
      rw [List.drop_eq_nil_of_le (by omega)]
      simp

theorem checkGridLoop_wf (fuel : Nat) :
    ∀ (i : Nat) (g : List (List Nat)) (count : Nat),
      gridWF g → gridWF (checkGridLoop fuel i g count).1 := by
  induction fuel with
  | zero => intro i g count hw; simpa [checkGridLoop] using hw
  | succ fuel ih =>
    intro i g count hw
    rw [checkGridLoop]
    by_cases hlt : i < g.length
    · rw [if_pos hlt]
      by_cases hrow :
          rowAllFilled (g.getD 0 []).length (g.getD i []) = true
      · rw [if_pos hrow]
        apply ih
        obtain ⟨hlen, hrows⟩ := hw
        constructor
        · simp [List.length_take, List.length_drop]
          omega
        · intro r hr
          rcases List.mem_cons.1 hr with rfl | hr
          · exact ⟨rfl, by decide⟩
          · rcases List.mem_append.1 hr with hr | hr
            · exact hrows _ (List.mem_of_mem_take hr)
            · exact hrows _ (List.mem_of_mem_drop hr)
      · rw [if_neg hrow]
        exact ih _ _ _ hw
    · rw [if_neg hlt]
      exact hw

theorem writeCell_wf {g : List (List Nat)} (hw : gridWF g) {q p : Int}
    {v : Nat} (hv : v ≤ 7) : gridWF (writeCell g q p v) := by
  obtain ⟨hlen, hrows⟩ := hw
  by_cases hq : q.toNat < g.length
  · refine ⟨by simpa [writeCell] using hlen, ?_⟩
    intro r hr
    unfold writeCell at hr
    rcases List.mem_or_eq_of_mem_set hr with hr | rfl
    · exact hrows _ hr
    · have hmem : g.getD q.toNat [] ∈ g := by
        rw [List.getD_eq_getElem g [] hq]
        exact List.getElem_mem hq
      obtain ⟨hrl, hrc⟩ := hrows _ hmem
      refine ⟨by simpa using hrl, ?_⟩
      intro c hc
      rcases List.mem_or_eq_of_mem_set hc with hc | rfl
      · exact hrc _ hc
      · exact hv
  · unfold writeCell
    rw [List.set_eq_of_length_le (Nat.le_of_not_lt hq)]
    exact ⟨hlen, hrows⟩

theorem writeRow_wf (v : Nat) (q : Int) (hv : v ≤ 7) :
    ∀ (cs : List Nat) (p : Int) (g : List (List Nat)),
      gridWF g → gridWF (writeRow v q cs p g) := by
  intro cs
  induction cs with
  | nil => intro p g hw; exact hw
  | cons c rest ih =>
    intro p g hw
    rw [writeRow]
    apply ih
    by_cases hc : (c == 1) = true
    · rw [if_pos hc]
      exact writeCell_wf hw hv
    · rw [if_neg hc]
      exact hw

theorem writePiece_wf (v : Nat) (hv : v ≤ 7) :
    ∀ (rs : List (List Nat)) (x q : Int) (g : List (List Nat)),
      gridWF g → gridWF (writePiece v rs x q g) := by
  intro rs
  induction rs with
  | nil => intro x q g hw; exact hw
  | cons r rest ih =>
    intro x q g hw
    rw [writePiece]
    exact ih _ _ _ (writeRow_wf v q hv r x g hw)

theorem writeCell_length (g : List (List Nat)) (q p : Int) (v : Nat) :
    (writeCell g q p v).length = g.length := by
  simp [writeCell]

theorem writeCell_rowLen (g : List (List Nat)) (q p : Int) (v : Nat) (q2 : Nat) :
    ((writeCell g q p v).getD q2 []).length = (g.getD q2 []).length := by
  unfold writeCell
  by_cases hq : q.toNat = q2
  · subst hq
    by_cases hlen : q.toNat < g.length
    · rw [List.getD_eq_getElem?_getD, List.getElem?_set_self hlen]
      simp
    · rw [List.set_eq_of_length_le (Nat.le_of_not_lt hlen)]
  · rw [List.getD_eq_getElem?_getD, List.getElem?_set_ne hq,
      ← List.getD_eq_getElem?_getD]

theorem getCell_writeCell_self {g : List (List Nat)} {q p : Int} {v : Nat}
    (hq : q.toNat < g.length) (hp : p.toNat < (g.getD q.toNat []).length) :
    getCell (writeCell g q p v) q.toNat p.toNat = v := by
  have hp2 : p.toNat < (g[q.toNat]?.getD []).length := by
    rwa [List.getD_eq_getElem?_getD] at hp
  unfold writeCell getCell
  simp only [List.getD_eq_getElem?_getD, List.getElem?_set_self hq,
    Option.getD_some, List.getElem?_set_self hp2]

theorem getCell_writeCell_ne {g : List (List Nat)} {q p : Int} {v : Nat}
    {q2 p2 : Nat} (h : q.toNat ≠ q2 ∨ p.toNat ≠ p2) :
    getCell (writeCell g q p v) q2 p2 = getCell g q2 p2 := by
  unfold writeCell getCell
  by_cases hq : q.toNat = q2
  · have hp2 : p.toNat ≠ p2 := by
      rcases h with h | h
      · exact absurd hq h
      · exact h
    subst hq
    by_cases hlen : q.toNat < g.length
    · simp [List.getD_eq_getElem?_getD, List.getElem?_set_self hlen,
        List.getElem?_set_ne hp2]
    · rw [List.set_eq_of_length_le (Nat.le_of_not_lt hlen)]
  · simp [List.getD_eq_getElem?_getD, List.getElem?_set_ne hq]

theorem writeRow_length (v : Nat) (q : Int) :
    ∀ (cs : List Nat) (p : Int) (g : List (List Nat)),
      (writeRow v q cs p g).length = g.length := by
  intro cs
  induction cs with
  | nil => intro p g; rfl
  | cons c rest ih =>
    intro p g
    rw [writeRow, ih]
    by_cases hc : (c == 1) = true
    · rw [if_pos hc, writeCell_length]
    · rw [if_neg hc]

theorem writeRow_rowLen (v : Nat) (q : Int) :
    ∀ (cs : List Nat) (p : Int) (g : List (List Nat)) (q2 : Nat),
      ((writeRow v q cs p g).getD q2 []).length = (g.getD q2 []).length := by
  intro cs
  induction cs with
  | nil => intro p g q2; rfl
  | cons c rest ih =>
    intro p g q2
    rw [writeRow, ih]
    by_cases hc : (c == 1) = true
    · rw [if_pos hc, writeCell_rowLen]
    · rw [if_neg hc]

theorem getCell_writeRow_ne (v : Nat) (q : Int) :
    ∀ (cs : List Nat) (p : Int) (g : List (List Nat)) (q2 p2 : Nat),
      (q.toNat ≠ q2 ∨ ∀ j : Nat, j < cs.length → (p + (j : Int)).toNat ≠ p2) →
      getCell (writeRow v q cs p g) q2 p2 = getCell g q2 p2 := by
  intro cs
  induction cs with
  | nil => intro p g q2 p2 _; rfl
  | cons c rest ih =>
    intro p g q2 p2 h
    rw [writeRow]
    have htail : q.toNat ≠ q2 ∨
        ∀ j : Nat, j < rest.length → ((p + 1) + (j : Int)).toNat ≠ p2 := by
      rcases h with h | h
      · exact Or.inl h
      · refine Or.inr fun j hj => ?_
        have hstep := h (j + 1) (by simpa using Nat.succ_lt_succ hj)
        have harith : p + ((j + 1 : Nat) : Int) = (p + 1) + (j : Int) := by
          push_cast; ring
        rwa [harith] at hstep
    rw [ih (p + 1) _ q2 p2 htail]
    by_cases hc : (c == 1) = true
    · rw [if_pos hc]
      apply getCell_writeCell_ne
      rcases h with h | h
      · exact Or.inl h
      · refine Or.inr ?_
        have hzero := h 0 (by simp)
        simpa using hzero
    · rw [if_neg hc]

theorem getCell_writeRow_mem (v : Nat) (q : Int) :
    ∀ (cs : List Nat) (p : Int) (g : List (List Nat)) (j : Nat),
      j < cs.length → cs.getD j 0 = 1 → 0 ≤ p + (j : Int) →
      q.toNat < g.length → (p + (j : Int)).toNat < (g.getD q.toNat []).length →
      getCell (writeRow v q cs p g) q.toNat (p + (j : Int)).toNat = v := by
  intro cs
  induction cs with
  | nil => intro p g j hj; exact absurd hj (by simp)
  | cons c rest ih =>
    intro p g j hj hval hpos hq hp
    rw [writeRow]
    rcases j with _ | j
    · have hc : (c == 1) = true := by simpa using hval
      have hpz : p + ((0 : Nat) : Int) = p := by push_cast; ring
      rw [hpz] at hpos hp ⊢
      rw [if_pos hc]
      rw [getCell_writeRow_ne v q rest (p + 1) _ q.toNat p.toNat
        (Or.inr fun j2 hj2 => by omega)]
      exact getCell_writeCell_self hq hp
    · have harith : p + ((j + 1 : Nat) : Int) = (p + 1) + (j : Int) := by
        push_cast; ring
      rw [harith] at hpos hp ⊢
      have hj2 : j < rest.length := Nat.lt_of_succ_lt_succ hj
      by_cases hc : (c == 1) = true
      · rw [if_pos hc]
        exact ih (p + 1) _ j hj2 hval hpos
          (by rw [writeCell_length]; exact hq)
          (by rw [writeCell_rowLen]; exact hp)
      · rw [if_neg hc]
        exact ih (p + 1) _ j hj2 hval hpos hq hp

theorem getCell_writePiece_ne (v : Nat) :
    ∀ (rs : List (List Nat)) (x q : Int) (g : List (List Nat)) (q2 p2 : Nat),
      (∀ i : Nat, i < rs.length → (q + (i : Int)).toNat ≠ q2) →
      getCell (writePiece v rs x q g) q2 p2 = getCell g q2 p2 := by
  intro rs
  induction rs with
  | nil => intro x q g q2 p2 _; rfl
  | cons r rest ih =>
    intro x q g q2 p2 h
    rw [writePiece]
    have htail : ∀ i : Nat, i < rest.length →
        ((q + 1) + (i : Int)).toNat ≠ q2 := by
      intro i hi
      have hstep := h (i + 1) (by simpa using Nat.succ_lt_succ hi)
      have harith : q + ((i + 1 : Nat) : Int) = (q + 1) + (i : Int) := by
        push_cast; ring
      rwa [harith] at hstep
    rw [ih x (q + 1) _ q2 p2 htail]
    apply getCell_writeRow_ne
    refine Or.inl ?_
    have hzero := h 0 (by simp)
    simpa using hzero

theorem writePiece_length (v : Nat) :
    ∀ (rs : List (List Nat)) (x q : Int) (g : List (List Nat)),
      (writePiece v rs x q g).length = g.length := by
  intro rs
  induction rs with
  | nil => intro x q g; rfl
  | cons r rest ih =>
    intro x q g
    rw [writePiece, ih, writeRow_length]

theorem getCell_writePiece_mem (v : Nat) :
    ∀ (rs : List (List Nat)) (x q : Int) (g : List (List Nat)) (i j : Nat),
      i < rs.length → j < (rs.getD i []).length →
      (rs.getD i []).getD j 0 = 1 →
      0 ≤ q + (i : Int) → 0 ≤ x + (j : Int) →
      (q + (i : Int)).toNat < g.length →
      (x + (j : Int)).toNat < (g.getD (q + (i : Int)).toNat []).length →
      getCell (writePiece v rs x q g) (q + (i : Int)).toNat
        (x + (j : Int)).toNat = v := by
  intro rs
  induction rs with
  | nil => intro x q g i j hi; exact absurd hi (by simp)
  | cons r rest ih =>
    intro x q g i j hi hj hval hq0 hx0 hqlt hplt
    rw [writePiece]
    rcases i with _ | i
    · have hqz : q + ((0 : Nat) : Int) = q := by push_cast; ring
      rw [hqz] at hq0 hqlt hplt ⊢
      rw [getCell_writePiece_ne v rest x (q + 1) _ q.toNat
        (x + (j : Int)).toNat (fun i2 hi2 => by omega)]
      exact getCell_writeRow_mem v q r x g j hj hval hx0 hqlt hplt
    · have harith : q + ((i + 1 : Nat) : Int) = (q + 1) + (i : Int) := by
        push_cast; ring
      rw [harith] at hq0 hqlt hplt ⊢
      exact ih x (q + 1) _ i j (Nat.lt_of_succ_lt_succ hi) hj hval hq0 hx0
        (by rw [writeRow_length]; exact hqlt)
        (by rw [writeRow_rowLen]; exact hplt)

/-- One `checkGrid` pass counts exactly the rows that were complete
before the pass: the `splice` plus `unshift` combination leaves every
row below the removal point at its index, so the forward-moving scan
index misses nothing. -/
theorem checkGridCount_eq (g : List (List Nat)) (hd : gridDims g) :
    (checkGridCount g).2 = g.countP (fun r => rowAllFilled COLS r) := by
  obtain ⟨hlen, hrows⟩ := hd
  have h := checkGridLoop_count g.length 0 g 0 (by rw [hlen]; decide) hrows
    (by omega)
  simpa using h

theorem scoreInc_eq (n : Nat) :
    scoreInc n = match n with
      | 0 => 0
      | 1 => 10
      | 2 => 30
      | 3 => 50
      | _ + 4 => 100 := by
  rcases n with _ | _ | _ | _ | n <;> simp [scoreInc]

/-- C3: every line-clear pass adds exactly the table amount for its
clear count: 0 lines add 0, 1 adds 10, 2 adds 30, 3 adds 50, four or
more add 100; `checkGrid` adds `scoreInc` of the pass count and nothing
else. -/
theorem claim3_per_pass_scoring (s : GameState) :
    (checkGrid s).score = s.score + scoreInc (checkGridCount s.grid).2 ∧
    ∀ n : Nat,
      scoreInc n = match n with
        | 0 => 0
        | 1 => 10
        | 2 => 30
        | 3 => 50
        | _ + 4 => 100 :=
  ⟨rfl, scoreInc_eq⟩

/-- C4: `collision` returns true exactly when some cell of the shape
matrix with value 1 lands outside `[0,COLS) × [0,ROWS)` (including
negative coordinates) or on a nonzero board cell; cells whose value is
not 1 never contribute (only value-1 cells occur in the
characterisation), and the function is pure by construction (it takes
and returns no state). -/
theorem claim4_collision_characterisation (g piece : List (List Nat)) (x y : Int) :
    collision g piece x y = true ↔
      ∃ i j, i < piece.length ∧ j < (piece.getD i []).length ∧
        (piece.getD i []).getD j 0 = 1 ∧
        (¬ (0 ≤ x + (j : Int) ∧ x + (j : Int) < (COLS : Int) ∧
            0 ≤ y + (i : Int) ∧ y + (i : Int) < (ROWS : Int)) ∨
          0 < getCell g (y + (i : Int)).toNat (x + (j : Int)).toNat) :=
  collision_iff g piece x y

/-- C6: `rotate` is a no-op when no piece is active, and when the
rotated matrix collides at the current offsets the whole state is kept
unchanged (shape, offsets, board and score), with no wall-kick
retry. -/
theorem claim6_rotate_guard_and_rejection (s : GameState) :
    (s.fallingPieceObj = none → rotate s = s) ∧
    ∀ fp, s.fallingPieceObj = some fp →
      collision s.grid (rotateShape fp.piece) fp.x fp.y = true → rotate s = s := by
  constructor
  · intro h
    unfold rotate
    rw [h]
  · intro fp h hc
    unfold rotate
    rw [h]
    simp [hc]

theorem claim6_witness :
    rotate sNoPiece = sNoPiece ∧ rotate sIRight = sIRight := by
  constructor
  · exact (claim6_rotate_guard_and_rejection sNoPiece).1 rfl
  · exact (claim6_rotate_guard_and_rejection sIRight).2 { pieceI with x := 7 } rfl
      (by decide)

/-- C7: with an active piece, `moveLeft` and `moveRight` change the
horizontal offset by exactly one when the target position is
collision-free and change nothing at all otherwise; in both cases the
vertical offset, the shape matrix, the board and the score are
untouched. In particular a piece with a filled cell at board column 0
is not moved left. -/
theorem claim7_horizontal_moves (s : GameState) (fp : FallingPiece)
    (h : s.fallingPieceObj = some fp) :
    (collision s.grid fp.piece (fp.x - 1) fp.y = false →
      moveLeft s = { s with fallingPieceObj := some { fp with x := fp.x - 1 } }) ∧
    (collision s.grid fp.piece (fp.x - 1) fp.y = true → moveLeft s = s) ∧
    (collision s.grid fp.piece (fp.x + 1) fp.y = false →
      moveRight s = { s with fallingPieceObj := some { fp with x := fp.x + 1 } }) ∧
    (collision s.grid fp.piece (fp.x + 1) fp.y = true → moveRight s = s) ∧
    ((∃ i j, i < fp.piece.length ∧ j < (fp.piece.getD i []).length ∧
        (fp.piece.getD i []).getD j 0 = 1 ∧ fp.x + (j : Int) = 0) →
      moveLeft s = s) := by
  refine ⟨?_, ?_, ?_, ?_, ?_⟩
  · intro hc; unfold moveLeft; rw [h]; simp [hc]
  · intro hc; unfold moveLeft; rw [h]; simp [hc]
  · intro hc; unfold moveRight; rw [h]; simp [hc]
  · intro hc; unfold moveRight; rw [h]; simp [hc]
  · rintro ⟨i, j, hi, hj, hv, hx⟩
    have hc : collision s.grid fp.piece (fp.x - 1) fp.y = true := by
      rw [collision_iff]
      refine ⟨i, j, hi, hj, hv, Or.inl ?_⟩
      rintro ⟨h0, -⟩
      omega
    unfold moveLeft; rw [h]; simp [hc]

theorem claim7_witness :
    moveLeft sOLeft = sOLeft ∧
    moveRight sOLeft =
      { sOLeft with fallingPieceObj := some { pieceO with x := 0 + 1 } } := by
  constructor
  · exact (claim7_horizontal_moves sOLeft { pieceO with x := 0 } rfl).2.2.2.2
      ⟨0, 0, by decide, by decide, by decide, by decide⟩
  · exact (claim7_horizontal_moves sOLeft { pieceO with x := 0 } rfl).2.2.1
      (by decide)

/-- C1 counterexample: there is no 20×10 board with two adjacent
complete rows on which one `checkGrid` pass counts fewer clears than
there are complete rows — the splice-then-unshift mutation keeps every
row below the removal point at its index, so the forward scan finds
both adjacent complete rows. -/
theorem claim1_counterexample :
    ¬ ∃ g : List (List Nat), gridDims g ∧
      (∃ i, i + 1 < g.length ∧ rowAllFilled COLS (g.getD i []) = true ∧
        rowAllFilled COLS (g.getD (i + 1) []) = true) ∧
      (checkGridCount g).2 < g.countP (fun r => rowAllFilled COLS r) := by
  rintro ⟨g, hd, -, hlt⟩
  rw [checkGridCount_eq g hd] at hlt
  omega

/-- C1 (amended): one `checkGrid` pass detects every complete row: its
clear count equals the number of fully-filled rows present before the
pass, for every 20×10 board — in particular both rows of any adjacent
complete pair are cleared. -/
theorem claim1_full_detection (g : List (List Nat)) (hd : gridDims g) :
    (checkGridCount g).2 = g.countP (fun r => rowAllFilled COLS r) :=
  checkGridCount_eq g hd

theorem claim1_witness :
    gridDims adjacentFullGrid ∧
    (checkGridCount adjacentFullGrid).2 =
      adjacentFullGrid.countP (fun r => rowAllFilled COLS r) :=
  ⟨by decide, claim1_full_detection adjacentFullGrid (by decide)⟩

/-- C8: whenever `moveDown` locks a piece (the position one row down
collides), all the piece's filled cells are merged into the board with
its fill-code, the active piece becomes absent, and game-over (timer
cancelled, running flag cleared) is triggered exactly when the piece's
vertical offset is 0 at the moment of locking. The bounds hypotheses
(`gridDims`, `cellsInBounds`) hold in every reachable lock, since the
piece only ever occupies collision-checked positions. -/
theorem claim8_lock_behavior (s : GameState) (fp : FallingPiece)
    (hp : s.fallingPieceObj = some fp)
    (hrun : s.isGameRunning = true) (hact : s.intervalActive = true)
    (hdims : gridDims s.grid)
    (hc : collision s.grid fp.piece fp.x (fp.y + 1) = true)
    (hin : cellsInBounds fp.piece fp.x fp.y = true) :
    ∃ s2, moveDown s = some s2 ∧ s2.fallingPieceObj = none ∧
      (∀ i j : Nat, i < fp.piece.length → j < (fp.piece.getD i []).length →
        (fp.piece.getD i []).getD j 0 = 1 →
        getCell s2.grid (fp.y + (i : Int)).toNat (fp.x + (j : Int)).toNat =
          fp.colorIndex) ∧
      ((s2.isGameRunning = false ∧ s2.intervalActive = false) ↔ fp.y = 0) := by
  have hbounds := (cellsInBounds_iff fp.piece fp.x fp.y).1 hin
  obtain ⟨hlen, hrows⟩ := hdims
  have hRows : (ROWS : Int) = 20 := rfl
  have hCols : (COLS : Int) = 10 := rfl
  have hrowlen : ∀ q2 : Nat, q2 < s.grid.length →
      (s.grid.getD q2 []).length = COLS := by
    intro q2 h2
    rw [List.getD_eq_getElem _ _ h2]
    exact hrows _ (List.getElem_mem h2)
  have hmerge : ∀ i j : Nat, i < fp.piece.length →
      j < (fp.piece.getD i []).length →
      (fp.piece.getD i []).getD j 0 = 1 →
      getCell (lockPiece s.grid fp) (fp.y + (i : Int)).toNat
        (fp.x + (j : Int)).toNat = fp.colorIndex := by
    intro i j hi hj hval
    obtain ⟨hx0, hxlt, hy0, hylt⟩ := hbounds i j hi hj hval
    have hqlt : (fp.y + (i : Int)).toNat < s.grid.length := by
      rw [hlen]
      rw [hRows] at hylt
      omega
    have hplt : (fp.x + (j : Int)).toNat <
        (s.grid.getD (fp.y + (i : Int)).toNat []).length := by
      rw [hrowlen _ hqlt]
      rw [hCols] at hxlt
      omega
    exact getCell_writePiece_mem fp.colorIndex fp.piece fp.x fp.y s.grid i j
      hi hj hval hy0 hx0 hqlt hplt
  by_cases hy : fp.y = 0
  · refine ⟨{ s with
      grid := lockPiece s.grid fp, fallingPieceObj := none,
      isGameRunning := false, intervalActive := false }, ?_, rfl, hmerge, ?_⟩
    · simp only [moveDown, hp]
      rw [hc]
      simp [hy]
    · simp [hy]
  · refine ⟨{ s with
      grid := lockPiece s.grid fp, fallingPieceObj := none }, ?_, rfl, hmerge, ?_⟩
    · simp [moveDown, hp, hc, hy]
    · rw [hrun, hact]
      simp [hy]

theorem claim8_witness :
    ∃ s2, moveDown sOBottom = some s2 ∧ s2.fallingPieceObj = none ∧
      (∀ i j : Nat, i < ({ pieceO with y := 18 } : FallingPiece).piece.length →
        j < (({ pieceO with y := 18 } : FallingPiece).piece.getD i []).length →
        (({ pieceO with y := 18 } : FallingPiece).piece.getD i []).getD j 0 = 1 →
        getCell s2.grid
          (({ pieceO with y := 18 } : FallingPiece).y + (i : Int)).toNat
          (({ pieceO with y := 18 } : FallingPiece).x + (j : Int)).toNat =
          ({ pieceO with y := 18 } : FallingPiece).colorIndex) ∧
      ((s2.isGameRunning = false ∧ s2.intervalActive = false) ↔
        ({ pieceO with y := 18 } : FallingPiece).y = 0) :=
  claim8_lock_behavior sOBottom { pieceO with y := 18 } rfl rfl rfl
    (by decide) (by decide) (by decide)

/-- C9: every board-mutating operation preserves the board invariant:
`generateGrid` creates a well-formed 20×10 board of zeros, the
line-clear compaction of `checkGrid` preserves well-formedness
(splicing keeps the length, the unshifted row is 10 zeros), and the
piece-lock merge of `moveDown` preserves it whenever the locked piece
carries a fill-code at most 7 (spawned pieces carry 1–7); every cell
stays an integer in `[0, 7]`. -/
theorem claim9_board_invariants :
    gridWF generateGrid ∧
    (∀ s : GameState, gridWF s.grid → gridWF (checkGrid s).grid) ∧
    (∀ (s : GameState) (fp : FallingPiece) (s2 : GameState),
      s.fallingPieceObj = some fp → fp.colorIndex ≤ 7 →
      moveDown s = some s2 → gridWF s.grid → gridWF s2.grid) := by
  refine ⟨by decide, ?_, ?_⟩
  · intro s hw
    unfold checkGrid checkGridCount
    exact checkGridLoop_wf _ _ _ _ hw
  · intro s fp s2 hp hv hmv hw
    simp only [moveDown, hp] at hmv
    by_cases hc : collision s.grid fp.piece fp.x (fp.y + 1) = true
    · rw [hc] at hmv
      by_cases hy : (fp.y == 0) = true
      · simp only [hy, Bool.not_true, Bool.false_eq_true, if_false, if_true,
          Option.some.injEq] at hmv
        subst hmv
        exact writePiece_wf _ hv _ _ _ _ hw
      · simp only [hy, Bool.not_true, Bool.false_eq_true, if_false,
          Option.some.injEq] at hmv
        subst hmv
        exact writePiece_wf _ hv _ _ _ _ hw
    · have hcf : collision s.grid fp.piece fp.x (fp.y + 1) = false :=
        Bool.eq_false_iff.2 hc
      simp only [hcf, Bool.not_false, if_true, Option.some.injEq] at hmv
      subst hmv
      exact hw

theorem claim9_witness :
    gridWF (checkGrid sOBottom).grid ∧ gridWF sAfterLock.grid := by
  constructor
  · exact claim9_board_invariants.2.1 sOBottom (by decide)
  · exact claim9_board_invariants.2.2 sOBottom { pieceO with y := 18 }
      sAfterLock rfl (by decide) (by decide) (by decide)

/-- C2 counterexample: the O piece spawned at `(4, 0)` on an empty
board is already locked by the 19th `moveDown` call (the state after 19
calls has no active piece), so it is false that the first 19 calls all
move it down without locking and bring its offset to 19. Its filled
cells span matrix rows 0 and 1, so it rests at offset 18 with its
bottom cells on board row 19. -/
theorem claim2_counterexample :
    (stepN 19 oInit).map GameState.fallingPieceObj = some none ∧
    ¬ ((stepN 19 oInit).bind GameState.fallingPieceObj).map FallingPiece.y =
        some 19 := by
  decide

/-- C2 amended: on an empty board, each of the first 18 `moveDown`
calls moves the O piece spawned at `(4, 0)` down one row without
locking, bringing its vertical offset to 18 (its bottom filled cells on
board row 19, the floor), and the 19th call locks it. -/
theorem claim2_o_piece_descent :
    (∀ k : Fin 19,
      ((stepN k.1 oInit).bind GameState.fallingPieceObj).map FallingPiece.y =
        some (k.1 : Int)) ∧
    (stepN 19 oInit).map GameState.fallingPieceObj = some none := by
  decide

/-- C5: for every square shape matrix, the rotation transform
(transpose then reverse every row) applied four times is the
identity. -/
theorem claim5_rotate_four_times (m : List (List Nat)) (h : isSquare m) :
    rotateShape (rotateShape (rotateShape (rotateShape m))) = m := by
  have h2 : isSquare (rotateShape (rotateShape m)) :=
    rotateShape_isSquare (rotateShape_isSquare h)
  have h4 : isSquare (rotateShape (rotateShape (rotateShape (rotateShape m)))) :=
    rotateShape_isSquare (rotateShape_isSquare h2)
  have hlen2 : (rotateShape (rotateShape m)).length = m.length := by
    rw [rotateShape_length, rotateShape_length]
  have hlen4 :
      (rotateShape (rotateShape (rotateShape (rotateShape m)))).length =
        m.length := by
    rw [rotateShape_length, rotateShape_length, hlen2]
  apply grid_ext hlen4
  · intro i hi
    rw [square_row_length h4 hi, square_row_length h (by omega), hlen4]
  · intro i j hi hj
    rw [square_row_length h4 hi, hlen4] at hj
    rw [hlen4] at hi
    have e1 := rotateShape_entry2 h2 (by omega : i < (rotateShape (rotateShape m)).length)
      (by omega : j < (rotateShape (rotateShape m)).length)
    rw [hlen2] at e1
    have e2 := rotateShape_entry2 h
      (by omega : m.length - 1 - i < m.length)
      (by omega : m.length - 1 - j < m.length)
    rw [e1, e2]
    have hi2 : m.length - 1 - (m.length - 1 - i) = i := by omega
    have hj2 : m.length - 1 - (m.length - 1 - j) = j := by omega
    rw [hi2, hj2]

theorem claim5_witness :
    isSquare (SHAPES.getD 5 []) ∧
    rotateShape (rotateShape (rotateShape (rotateShape (SHAPES.getD 5 [])))) =
      SHAPES.getD 5 [] :=
  ⟨by decide, claim5_rotate_four_times (SHAPES.getD 5 []) (by decide)⟩

/-- C10: a running state with no active piece is reachable by one
locking `moveDown` (here: the O piece resting on the floor), and in it
the move-down key handler faults (`none`, the source's unguarded
`fallingPieceObj.x` dereference of `null`), while the left, right and
rotate handlers guard for the absent piece and leave the state
unchanged. -/
theorem claim10_unguarded_movedown :
    ∃ s0 s1 : GameState, moveDown s0 = some s1 ∧
      s1.isGameRunning = true ∧ s1.fallingPieceObj = none ∧
      onKeyDown "ArrowDown" s1 = none ∧
      onKeyDown "ArrowLeft" s1 = some s1 ∧
      onKeyDown "ArrowRight" s1 = some s1 ∧
      onKeyDown "ArrowUp" s1 = some s1 := by
  exact ⟨sOBottom, sAfterLock, by decide⟩

end Tetris
